import Mathlib

/-!
Verification of the websocket load balancer repository.

Shallow embedding of the Go sources:
  * `src/loadbalancer.go` — backend registry, selector, splice accounting,
    health probing, message forwarding (`LoadBalancer`, `selectBackend`,
    `handleWebSocket`, `cleanupConnection`, `checkBackendsHealth`,
    `forwardMessages`);
  * `src/global_clients.go` — the shared client registry
    (`GlobalClientRegistry`, `GetClient`, `GetAllClients`,
    `CleanupOfflineClients`);
  * `src/server.go` / `src/loadbalancer.go` — client-name synthesis in the
    upgrade handlers.

Go maps keyed by id are embedded as lists of records carrying their id, with
first-match lookup/update (the only insertion points set the key equal to the
record's id field, so the key is kept inside the record).  Go `int` counters
that the code keeps non-negative are embedded as `Nat`, with the source's
explicit `> 0` guard kept in the decrement.  Timestamps are `Nat`
(nanoseconds, matching `time.Duration`).  Network effects (probe outcomes,
dial outcomes) are passed in as explicit parameters.
-/

namespace WsLb

/-- Backend descriptor, from `BackendServer` in `src/loadbalancer.go` lines 25-32. -/
structure BackendServer where
  id : String
  address : String
  connections : Nat
  isHealthy : Bool
  lastCheck : Nat
  weight : Int
deriving DecidableEq, Repr

/-- Client connection record, from `ClientConnection` in `src/loadbalancer.go`
lines 35-44 (the two `*websocket.Conn` handles are not data and are omitted). -/
structure ClientConnection where
  id : String
  name : String
  backendID : String
  connTime : Nat
  lastSeen : Nat
  isActive : Bool
deriving DecidableEq, Repr

/-- Load-balancer state, from `LoadBalancer` in `src/loadbalancer.go` lines 47-56.
The strategy is the raw string from the CLI flag, as in the Go source where
`LoadBalanceStrategy` is a string type cast from the flag. -/
structure LoadBalancer where
  port : Nat
  strategy : String
  backends : List BackendServer
  clients : List ClientConnection
  roundRobinIdx : Nat
deriving DecidableEq, Repr

/-- `NewLoadBalancer`, `src/loadbalancer.go` lines 59-71. -/
def NewLoadBalancer (port : Nat) (strategy : String) : LoadBalancer :=
  { port := port, strategy := strategy, backends := [], clients := [], roundRobinIdx := 0 }

/-- First-match lookup in the backend map (Go `lb.backends[id]` read). -/
def findBackend (bs : List BackendServer) (bid : String) : Option BackendServer :=
  bs.find? (fun b => b.id == bid)

/-- Map assignment `lb.backends[id] = ...`: replace the entry with this id,
or append a fresh one. -/
def setBackend : List BackendServer → BackendServer → List BackendServer
  | [], nb => [nb]
  | b :: rest, nb => if b.id = nb.id then nb :: rest else b :: setBackend rest nb

/-- `AddBackend`, `src/loadbalancer.go` lines 74-87: unconditionally installs a
fresh descriptor (healthy, zero connections, weight 1) under the id. -/
def freshBackend (id address : String) (now : Nat) : BackendServer :=
  { id := id, address := address, connections := 0, isHealthy := true,
    lastCheck := now, weight := 1 }

def AddBackend (lb : LoadBalancer) (id address : String) (now : Nat) : LoadBalancer :=
  { lb with backends := setBackend lb.backends (freshBackend id address now) }

/-- The healthy-backend filter, `src/loadbalancer.go` lines 205-211. -/
def healthyBackends (lb : LoadBalancer) : List BackendServer :=
  lb.backends.filter (fun b => b.isHealthy)

/-- `int(^uint(0) >> 1)`, the initial `minConn` in the least-conn branch. -/
def maxGoInt : Int := 2 ^ 63 - 1

/-- The least-conn scan, `src/loadbalancer.go` lines 223-232. -/
def leastConnLoop : List BackendServer → Option BackendServer → Int → Option BackendServer
  | [], selected, _ => selected
  | b :: rest, selected, minConn =>
    if (b.connections : Int) < minConn then leastConnLoop rest (some b) (b.connections : Int)
    else leastConnLoop rest selected minConn

/-- `selectBackend`, `src/loadbalancer.go` lines 201-237.  The remote address
argument is ignored by the source (`func (lb *LoadBalancer) selectBackend(_ string)`).
Map iteration order is embedded as the list order of `backends`.  The round-robin
branch advances `roundRobinIdx`; the other branches leave the state unchanged. -/
def selectBackend (lb : LoadBalancer) (_remoteAddr : String) : Option BackendServer × LoadBalancer :=
  let healthy := healthyBackends lb
  if healthy.length = 0 then (none, lb)
  else if lb.strategy = "round_robin" then
    (healthy.get? (lb.roundRobinIdx % healthy.length),
     { lb with roundRobinIdx := lb.roundRobinIdx + 1 })
  else if lb.strategy = "least_conn" then
    (leastConnLoop healthy none maxGoInt, lb)
  else
    (healthy.head?, lb)

/-- `backend.Connections++`, `src/loadbalancer.go` line 177, performed through
the pointer returned by `selectBackend`: the first backend with this id is
incremented. -/
def incConnections : List BackendServer → String → List BackendServer
  | [], _ => []
  | b :: rest, bid =>
    if b.id = bid then { b with connections := b.connections + 1 } :: rest
    else b :: incConnections rest bid

/-- The guarded decrement `if backend.Connections > 0 { backend.Connections-- }`,
`src/loadbalancer.go` lines 189-191 and 365-367. -/
def decGuarded (b : BackendServer) : BackendServer :=
  if 0 < b.connections then { b with connections := b.connections - 1 } else b

/-- One decrement pass over the backend map: the loop of `cleanupConnection`
(`src/loadbalancer.go` lines 362-372) finds the first backend whose `ID`
matches and applies the guarded decrement, then breaks.  The deferred cleanup
in `handleWebSocket` (lines 186-194) performs the same guarded decrement
through its `backend` pointer. -/
def decConnections : List BackendServer → String → List BackendServer
  | [], _ => []
  | b :: rest, bid => if b.id = bid then decGuarded b :: rest else b :: decConnections rest bid

/-- First-match lookup in the client map (Go `lb.clients[id]` read). -/
def findClient (cs : List ClientConnection) (cid : String) : Option ClientConnection :=
  cs.find? (fun c => c.id == cid)

/-- Map assignment `lb.clients[clientID] = client`, `src/loadbalancer.go` line 176. -/
def setClient : List ClientConnection → ClientConnection → List ClientConnection
  | [], nc => [nc]
  | c :: rest, nc => if c.id = nc.id then nc :: rest else c :: setClient rest nc

/-- `delete(lb.clients, clientID)`, `src/loadbalancer.go` lines 188 and 357. -/
def removeClient : List ClientConnection → String → List ClientConnection
  | [], _ => []
  | c :: rest, cid => if c.id = cid then rest else c :: removeClient rest cid

/-- The observable accounting events of one splice in `handleWebSocket`:
`start` is the registration block at lines 164-178 (insert the client record,
increment the chosen backend's counter); `finish` is the teardown, which runs
`cleanupConnection` (delete the client, guarded decrement, lines 344-376) from
the defer of `forwardMessages`, followed by the handler's own deferred cleanup
(delete again — a no-op — and a second guarded decrement, lines 186-194). -/
inductive SpliceEvent where
  | start (cid cname bid : String) (now : Nat)
  | finish (cid bid : String)
deriving DecidableEq, Repr

def applyEvent (lb : LoadBalancer) : SpliceEvent → LoadBalancer
  | .start cid cname bid now =>
    { lb with
      clients := setClient lb.clients
        { id := cid, name := cname, backendID := bid, connTime := now,
          lastSeen := now, isActive := true },
      backends := incConnections lb.backends bid }
  | .finish cid bid =>
    { lb with
      clients := removeClient lb.clients cid,
      backends := decConnections (decConnections lb.backends bid) bid }

def runEvents (lb : LoadBalancer) (tr : List SpliceEvent) : LoadBalancer :=
  tr.foldl applyEvent lb

/-- An event is admissible in a state when it can actually arise in the
program: a splice start carries a fresh client id (each Go handler invocation
registers one session), and a splice finish tears down a currently registered
session, naming its recorded backend. -/
def wfEvent (lb : LoadBalancer) : SpliceEvent → Bool
  | .start cid _ _ _ => (findClient lb.clients cid).isNone
  | .finish cid bid =>
    match findClient lb.clients cid with
    | some c => c.backendID == bid
    | none => false

def wfTraceB (lb : LoadBalancer) : List SpliceEvent → Bool
  | [] => true
  | e :: rest => wfEvent lb e && wfTraceB (applyEvent lb e) rest

/-- The connection counter of the backend with this id (0 when absent). -/
def connCount (bs : List BackendServer) (bid : String) : Nat :=
  match findBackend bs bid with
  | some b => b.connections
  | none => 0

/-- The number of client records bound to this backend. -/
def clientsFor (cs : List ClientConnection) (bid : String) : Nat :=
  (cs.filter (fun c => c.backendID == bid)).length

/-- The connection counter `b.Connections` read off the registry. -/
def connOf (lb : LoadBalancer) (bid : String) : Nat :=
  connCount lb.backends bid

/-- The number of currently active splices whose chosen backend is `bid`. -/
def activeSplices (lb : LoadBalancer) (bid : String) : Nat :=
  clientsFor lb.clients bid

/-- Outcome of one health probe: `client.Get(healthURL)` either fails at the
transport level or yields a response with some status code (the body is
closed unread). -/
inductive ProbeResult where
  | netError
  | response (status : Nat)
deriving DecidableEq, Repr

/-- What the source actually tests, `src/loadbalancer.go` lines 509-521:
whether the GET returned at all. -/
def respReceived : ProbeResult → Bool
  | .netError => false
  | .response _ => true

/-- The claimed success criterion (status 200, body ignored), stated for
comparison with what the code does. -/
def statusIs200 : ProbeResult → Bool
  | .netError => false
  | .response s => s == 200

/-- Effect of one probe on one backend, `src/loadbalancer.go` lines 509-523:
a transport error marks unhealthy, any response marks healthy; `LastCheck`
is set in both cases. -/
def applyProbe (b : BackendServer) (r : ProbeResult) (now : Nat) : BackendServer :=
  match r with
  | .netError => { b with isHealthy := false, lastCheck := now }
  | .response _ => { b with isHealthy := true, lastCheck := now }

/-- `checkBackendsHealth`, `src/loadbalancer.go` lines 490-525: probe every
backend and apply the outcome.  The probe outcome for each backend is passed
in, keyed by backend id. -/
def checkBackendsHealth (lb : LoadBalancer) (probe : String → ProbeResult) (now : Nat) : LoadBalancer :=
  { lb with backends := lb.backends.map (fun b => applyProbe b (probe b.id) now) }

/-- `connectToBackend` failure effect, `src/loadbalancer.go` lines 246-251:
the backend is marked unhealthy through the selector's pointer. -/
def markBackendUnhealthy : List BackendServer → String → List BackendServer
  | [], _ => []
  | b :: rest, bid =>
    if b.id = bid then { b with isHealthy := false } :: rest
    else b :: markBackendUnhealthy rest bid

/-- What `handleWebSocket` sends back on the (already upgraded) client socket
before forwarding begins.  The source replies with JSON error envelopes via
`WriteJSON`; a websocket close control frame with a numeric code is a distinct
wire action the source could have produced but does not. -/
inductive UpgradeReply where
  | jsonError (msg : String)
  | closeFrame (code : Nat)
  | proceed (bid : String)
deriving DecidableEq, Repr

inductive DialOutcome where
  | dialOk
  | dialFail
deriving DecidableEq, Repr

/-- The admission path of `handleWebSocket`, `src/loadbalancer.go` lines
142-183: select a backend (nil means reply with the JSON error envelope
`{"error": "没有可用的服务器"}` and return); dial it (failure marks it
unhealthy and replies `{"error": "服务器连接失败"}`); otherwise register the
client record and increment the backend's counter.  The dial outcome is a
parameter keyed by the backend address. -/
def handleWebSocketAdmission (lb : LoadBalancer) (remoteAddr cid cname : String) (now : Nat)
    (dial : String → DialOutcome) : LoadBalancer × UpgradeReply :=
  match selectBackend lb remoteAddr with
  | (none, lb1) => (lb1, .jsonError "没有可用的服务器")
  | (some backend, lb1) =>
    match dial backend.address with
    | .dialFail =>
      ({ lb1 with backends := markBackendUnhealthy lb1.backends backend.id },
       .jsonError "服务器连接失败")
    | .dialOk =>
      ({ lb1 with
          clients := setClient lb1.clients
            { id := cid, name := cname, backendID := backend.id, connTime := now,
              lastSeen := now, isActive := true },
          backends := incConnections lb1.backends backend.id },
       .proceed backend.id)

/-- JSON scalar values carried in one envelope field (enough of the JSON value
grammar to express the registration/control envelopes of `src/protocol.go`). -/
inductive JVal where
  | jstr (v : String)
  | jnum (v : Int)
  | jbool (v : Bool)
  | jnull
deriving DecidableEq, Repr

/-- One JSON object frame as it stands on the wire: its fields in wire order.
Two frames that differ in field order or duplicate keys are distinct wire
frames (they serialize to different bytes, see `emit`). -/
abbrev JFrame := List (String × JVal)

/-- Lexicographic order on char sequences by code point — the order in which
`encoding/json` marshals Go map keys (bytewise UTF-8 order, which agrees with
code-point order). -/
def charListLt : List Char → List Char → Bool
  | [], [] => false
  | [], _ :: _ => true
  | _ :: _, [] => false
  | c :: cs, d :: ds =>
    if c.toNat < d.toNat then true
    else if d.toNat < c.toNat then false
    else charListLt cs ds

def keyLt (a b : String) : Bool := charListLt a.data b.data

/-- Sorted-insert with replacement on an equal key.  Folding this over a frame
is the composite effect of `ReadJSON` into a Go `map[string]interface{}`
(later duplicate keys overwrite earlier ones) followed by `WriteJSON`
(`encoding/json` marshals map keys in sorted order). -/
def insertSorted : List (String × JVal) → String → JVal → List (String × JVal)
  | [], k, v => [(k, v)]
  | (k0, v0) :: rest, k, v =>
    if k = k0 then (k, v) :: rest
    else if keyLt k k0 then (k, v) :: (k0, v0) :: rest
    else (k0, v0) :: insertSorted rest k v

def toGoMap (f : JFrame) : JFrame :=
  f.foldl (fun acc kv => insertSorted acc kv.1 kv.2) []

/-- The per-frame effect of one iteration of a forwarder loop in
`forwardMessages`, `src/loadbalancer.go` lines 278-294 and 308-322: the frame
is decoded into a Go map and re-encoded, not copied byte for byte. -/
def reencode (f : JFrame) : JFrame := toGoMap f

/-- One forwarding direction applied to the sequence of frames read on that
leg: each is re-encoded and written to the opposite leg, in read order. -/
def forwardDirection (frames : List JFrame) : List JFrame := frames.map reencode

/-- First binding of a key in a frame. -/
def lookupKey : List (String × JVal) → String → Option JVal
  | [], _ => none
  | (k0, v0) :: rest, k => if k0 = k then some v0 else lookupKey rest k

/-- Last binding of a key in a wire frame — the value a Go JSON decode
assigns to that key (later duplicates win). -/
def lastBinding : JFrame → String → Option JVal
  | [], _ => none
  | (k0, v0) :: rest, k =>
    match lastBinding rest k with
    | some v => some v
    | none => if k0 = k then some v0 else none

def digitChar (d : Nat) : Char := Char.ofNat (48 + d)

/-- Decimal digits of `n`, most significant first (`fuel` bounds recursion
depth; `fuel = n` always suffices). -/
def natDecimalAux : Nat → Nat → List Char
  | 0, _ => []
  | fuel + 1, n => if n = 0 then [] else natDecimalAux fuel (n / 10) ++ [digitChar (n % 10)]

def natDecimal (n : Nat) : String :=
  if n = 0 then "0" else String.mk (natDecimalAux n n)

def intDecimal (i : Int) : String :=
  if i < 0 then "-" ++ natDecimal i.natAbs else natDecimal i.natAbs

def emitVal : JVal → String
  | .jstr v => "\"" ++ v ++ "\""
  | .jnum v => intDecimal v
  | .jbool true => "true"
  | .jbool false => "false"
  | .jnull => "null"

def emitEntries : JFrame → String
  | [] => ""
  | [(k, v)] => "\"" ++ k ++ "\":" ++ emitVal v
  | (k, v) :: rest => "\"" ++ k ++ "\":" ++ emitVal v ++ "," ++ emitEntries rest

/-- Serialization of a frame to wire bytes (compact form, as `encoding/json`
produces). -/
def emit (f : JFrame) : String := "\x7b" ++ emitEntries f ++ "\x7d"

/-- Shared client record, from `GlobalClientInfo` in `src/global_clients.go`
lines 12-21. -/
structure GlobalClientInfo where
  id : String
  name : String
  nodeID : String
  nodePort : Nat
  connTime : Nat
  lastSeen : Nat
  isActive : Bool
  status : String
deriving DecidableEq, Repr

/-- The registry state, from `GlobalClientRegistry` in `src/global_clients.go`
lines 24-28.  The Go map is `map[string]*GlobalClientInfo`: records live
behind pointers, embedded here as a heap of cells addressed by index, with
the map holding addresses.  Reads that mutate a record in place write through
the address; returned records are addresses into the same heap. -/
structure GlobalClientRegistry where
  cells : List GlobalClientInfo
  index : List (String × Nat)
deriving DecidableEq, Repr

def readCell (cells : List GlobalClientInfo) (a : Nat) : Option GlobalClientInfo :=
  cells.get? a

def writeCell (cells : List GlobalClientInfo) (a : Nat) (c : GlobalClientInfo) :
    List GlobalClientInfo :=
  cells.set a c

def lookupPtr : List (String × Nat) → String → Option Nat
  | [], _ => none
  | (k, a) :: rest, cid => if k = cid then some a else lookupPtr rest cid

/-- Durations in nanoseconds, as Go `time.Duration` counts them. -/
def nanosPerSecond : Nat := 1000000000

/-- `30 * time.Second`, the read-side offline threshold. -/
def offlineAfter : Nat := 30 * nanosPerSecond

/-- `5 * time.Minute`, the sweeper's eviction threshold. -/
def cleanupAfter : Nat := 5 * 60 * nanosPerSecond

/-- The in-place marking a read applies to a record, `src/global_clients.go`
lines 149-158 (and identically 172-181): stale records (no activity for more
than 30 s) are marked inactive/offline; fresh ones are marked active, with an
empty or `offline` status promoted to `online`. -/
def markByAge (c : GlobalClientInfo) (now : Nat) : GlobalClientInfo :=
  if offlineAfter < now - c.lastSeen then
    { c with isActive := false, status := "offline" }
  else
    { c with isActive := true,
             status := if c.status = "" ∨ c.status = "offline" then "online" else c.status }

/-- `GetClient`, `src/global_clients.go` lines 166-185: look up the pointer,
mutate the record in place according to its age, and return the pointer
itself (the caller receives `*GlobalClientInfo`, not a copy). -/
def GetClient (r : GlobalClientRegistry) (cid : String) (now : Nat) :
    GlobalClientRegistry × Option Nat :=
  match lookupPtr r.index cid with
  | none => (r, none)
  | some a =>
    match readCell r.cells a with
    | none => (r, some a)
    | some c => ({ r with cells := writeCell r.cells a (markByAge c now) }, some a)

def getAllLoop (cells : List GlobalClientInfo) (now : Nat) :
    List (String × Nat) → List GlobalClientInfo
  | [] => cells
  | (_, a) :: rest =>
    match readCell cells a with
    | some c => getAllLoop (writeCell cells a (markByAge c now)) now rest
    | none => getAllLoop cells now rest

/-- `GetAllClients`, `src/global_clients.go` lines 142-163: every record is
mutated in place according to its age, and the returned map holds the same
pointers under the same ids (`clients[id] = client` copies the pointer, not
the record). -/
def GetAllClients (r : GlobalClientRegistry) (now : Nat) :
    GlobalClientRegistry × List (String × Nat) :=
  ({ r with cells := getAllLoop r.cells now r.index }, r.index)

/-- `CleanupOfflineClients`, `src/global_clients.go` lines 213-229: delete
every entry whose record has been inactive for more than 5 minutes.  In Go
every stored pointer is valid; a dangling address (no cell) cannot arise and
is kept unchanged here. -/
def CleanupOfflineClients (r : GlobalClientRegistry) (now : Nat) : GlobalClientRegistry :=
  { r with index := r.index.filter (fun p =>
      match readCell r.cells p.2 with
      | some c => !(cleanupAfter < now - c.lastSeen)
      | none => true) }

/-- UTF-8 bytes of the Go string literal `"客户端_"` prepended to a synthesized
client name. -/
def cnClientBytes : List Nat := [229, 174, 162, 230, 136, 183, 231, 171, 175, 95]

/-- `clientID` defaulting, `src/loadbalancer.go` lines 133-135 and
`src/server.go` lines 91-93: an empty id is replaced by a synthesized
`"client_" + base36(now)` (always at least 8 bytes), passed in here as
`fallback`.  Strings are embedded as byte lists, matching Go's `len` and
slicing, which count bytes. -/
def resolveClientID (cid fallback : List Nat) : List Nat :=
  if cid = [] then fallback else cid

/-- Client-name synthesis in the proxy's upgrade handler,
`src/loadbalancer.go` lines 136-138: an empty name becomes
`"客户端_" + clientID[len(clientID)-4:]`.  The Go slice panics ("slice bounds
out of range") whenever `len(clientID) - 4` is negative, i.e. whenever the id
is shorter than 4 bytes; `none` embeds that panic. -/
def lbSynthClientName (cname cid : List Nat) : Option (List Nat) :=
  if cname = [] then
    if cid.length < 4 then none
    else some (cnClientBytes ++ cid.drop (cid.length - 4))
  else some cname

/-- The identical synthesis in the backend's upgrade handler,
`src/server.go` lines 94-96. -/
def srvSynthClientName (cname cid : List Nat) : Option (List Nat) :=
  if cname = [] then
    if cid.length < 4 then none
    else some (cnClientBytes ++ cid.drop (cid.length - 4))
  else some cname

/-! Concrete states used to instantiate the theorems below.  They are built
with the embedded operations themselves, mirroring the start-up sequence of
`runLoadBalancer` in the repository's main dispatch (create, add backends)
followed by probe and splice events. -/

/-- One backend, one completed splice start, then a failed probe: the backend
holds one connection and is marked unhealthy. -/
def lbConnUnhealthy : LoadBalancer :=
  checkBackendsHealth
    (applyEvent (AddBackend (NewLoadBalancer 8080 "round_robin") "node1" "ws://localhost:8081/ws" 0)
      (SpliceEvent.start "c1" "n1" "node1" 1))
    (fun _ => ProbeResult.netError) 2

/-- Two healthy backends under the round-robin strategy. -/
def lbTwoBackends : LoadBalancer :=
  AddBackend (AddBackend (NewLoadBalancer 8080 "round_robin") "node1" "ws://localhost:8081/ws" 0)
    "node2" "ws://localhost:8082/ws" 0

/-- A single healthy backend under the round-robin strategy. -/
def lbOneBackend : LoadBalancer :=
  AddBackend (NewLoadBalancer 8080 "round_robin") "node1" "ws://localhost:8081/ws" 0

/-- One backend whose health probe failed: no healthy backend remains. -/
def lbAllUnhealthy : LoadBalancer :=
  checkBackendsHealth
    (AddBackend (NewLoadBalancer 8080 "round_robin") "node1" "ws://localhost:8081/ws" 0)
    (fun _ => ProbeResult.netError) 1

/-- The splice trace refuting the accounting claim: two splices start on
`node1`, then the first one finishes. -/
def trTwoStartsOneFinish : List SpliceEvent :=
  [SpliceEvent.start "c1" "n1" "node1" 1, SpliceEvent.start "c2" "n2" "node1" 2,
   SpliceEvent.finish "c1" "node1"]

/-- A registry record last seen at time 0, online and active. -/
def recOnline : GlobalClientInfo :=
  { id := "c1", name := "n1", nodeID := "node1", nodePort := 8081,
    connTime := 0, lastSeen := 0, isActive := true, status := "online" }

/-- A one-record shared registry holding `recOnline` at address 0. -/
def regOne : GlobalClientRegistry :=
  { cells := [recOnline], index := [("c1", 0)] }

/-- The wire frame `'{"b":1,"a":2}'`: keys out of sorted order. -/
def frameBA : JFrame := [("b", JVal.jnum 1), ("a", JVal.jnum 2)]

/-! ### Helper lemmas about the embedded map operations -/

theorem findBackend_cons (b : BackendServer) (rest : List BackendServer) (bid : String) :
    findBackend (b :: rest) bid = if b.id = bid then some b else findBackend rest bid := by
  by_cases h : b.id = bid
  · simp [findBackend, List.find?_cons_of_pos, h]
  · simp [findBackend, List.find?_cons_of_neg, h]

theorem decGuarded_id (b : BackendServer) : (decGuarded b).id = b.id := by
  unfold decGuarded
  split <;> rfl

theorem decGuarded_connections (b : BackendServer) :
    (decGuarded b).connections = b.connections - 1 := by
  unfold decGuarded
  by_cases h : 0 < b.connections
  · rw [if_pos h]
  · rw [if_neg h]
    omega

theorem findBackend_incConnections (bs : List BackendServer) (bid bid' : String) :
    findBackend (incConnections bs bid) bid' =
      if bid' = bid then
        (findBackend bs bid).map (fun b => { b with connections := b.connections + 1 })
      else findBackend bs bid' := by
  induction bs with
  | nil => simp [incConnections, findBackend]
  | cons b rest ih =>
    by_cases hb : b.id = bid
    · simp only [incConnections, if_pos hb]
      by_cases hb' : bid' = bid
      · subst hb'
        simp [findBackend_cons, hb]
      · have hne : ¬ (b.id = bid') := fun hh => hb' (by rw [← hh, hb])
        simp [findBackend_cons, hne, hb', Ne.symm hb', hb]
    · simp only [incConnections, if_neg hb]
      by_cases hb' : bid' = bid
      · subst hb'
        have hne : ¬ (b.id = bid') := fun hh => hb hh
        simp [findBackend_cons, hne, ih]
      · by_cases hbb : b.id = bid'
        · simp [findBackend_cons, hbb, hb']
        · simp [findBackend_cons, hbb, hb', ih]

theorem findBackend_decConnections (bs : List BackendServer) (bid bid' : String) :
    findBackend (decConnections bs bid) bid' =
      if bid' = bid then (findBackend bs bid).map decGuarded
      else findBackend bs bid' := by
  induction bs with
  | nil => simp [decConnections, findBackend]
  | cons b rest ih =>
    by_cases hb : b.id = bid
    · simp only [decConnections, if_pos hb]
      by_cases hb' : bid' = bid
      · subst hb'
        simp [findBackend_cons, hb, decGuarded_id]
      · have hne : ¬ ((decGuarded b).id = bid') := by
          rw [decGuarded_id]
          exact fun hh => hb' (by rw [← hh, hb])
        have hne2 : ¬ (b.id = bid') := by
          rw [← decGuarded_id]
          exact hne
        simp [findBackend_cons, hne, hne2, hb', Ne.symm hb']
    · simp only [decConnections, if_neg hb]
      by_cases hb' : bid' = bid
      · subst hb'
        have hne : ¬ (b.id = bid') := fun hh => hb hh
        simp [findBackend_cons, hne, ih]
      · by_cases hbb : b.id = bid'
        · simp [findBackend_cons, hbb, hb']
        · simp [findBackend_cons, hbb, hb', ih]

theorem connCount_incConnections_ne (bs : List BackendServer) (bid bid' : String)
    (h : bid' ≠ bid) : connCount (incConnections bs bid) bid' = connCount bs bid' := by
  simp [connCount, findBackend_incConnections, h]

theorem connCount_incConnections_le (bs : List BackendServer) (bid : String) :
    connCount (incConnections bs bid) bid ≤ connCount bs bid + 1 := by
  simp only [connCount, findBackend_incConnections, if_pos rfl]
  cases findBackend bs bid <;> simp

theorem connCount_decConnections (bs : List BackendServer) (bid : String) :
    connCount (decConnections bs bid) bid = connCount bs bid - 1 := by
  simp only [connCount, findBackend_decConnections, if_pos rfl]
  cases findBackend bs bid <;> simp [decGuarded_connections]

theorem connCount_decConnections_ne (bs : List BackendServer) (bid bid' : String)
    (h : bid' ≠ bid) : connCount (decConnections bs bid) bid' = connCount bs bid' := by
  simp [connCount, findBackend_decConnections, h]

theorem setClient_fresh (cs : List ClientConnection) (nc : ClientConnection)
    (h : findClient cs nc.id = none) : setClient cs nc = cs ++ [nc] := by
  induction cs with
  | nil => rfl
  | cons c rest ih =>
    have hne : ¬ (c.id = nc.id) := by
      intro he
      simp [findClient, List.find?_cons_of_pos, he] at h
    have hrest : findClient rest nc.id = none := by
      simpa [findClient, List.find?_cons_of_neg, hne] using h
    simp [setClient, if_neg hne, ih hrest]

theorem removeClient_filter_length (cs : List ClientConnection) (cid : String)
    (c : ClientConnection) (h : findClient cs cid = some c) (p : ClientConnection → Bool) :
    (cs.filter p).length = ((removeClient cs cid).filter p).length + (if p c then 1 else 0) := by
  induction cs with
  | nil => exact absurd h (by simp [findClient])
  | cons c0 rest ih =>
    by_cases h0 : c0.id = cid
    · have hc : c = c0 := by
        have : findClient (c0 :: rest) cid = some c0 := by
          simp [findClient, List.find?_cons_of_pos, h0]
        rw [this] at h
        exact (Option.some.inj h).symm
      subst hc
      simp only [removeClient, if_pos h0]
      rw [List.filter_cons]
      by_cases hp : p c
      · simp [hp]
      · simp [hp]
    · have hrest : findClient rest cid = some c := by
        simpa [findClient, List.find?_cons_of_neg, h0] using h
      simp only [removeClient, if_neg h0]
      rw [List.filter_cons, List.filter_cons]
      by_cases hp : p c0
      · simp only [if_pos hp, List.length_cons]
        rw [ih hrest]
        omega
      · simp only [if_neg hp]
        exact ih hrest

theorem readCell_writeCell (cells : List GlobalClientInfo) (a : Nat)
    (c cNew : GlobalClientInfo) (h : readCell cells a = some c) :
    readCell (writeCell cells a cNew) a = some cNew := by
  have hn : a < cells.length := by
    by_contra hc
    rw [readCell, List.get?_eq_none.mpr (Nat.le_of_not_lt hc)] at h
    exact Option.noConfusion h
  simp [readCell, writeCell, List.get?_eq_getElem?, List.getElem?_set_self, hn]

/-! ### C3 — health probe semantics -/

/-- C3 counterexample: a probe that returns an HTTP response with status 500
marks the backend healthy, because `checkBackendsHealth` only tests whether
`client.Get` returned an error and never inspects the status code.  The claim
(healthy iff status 200) is false at this input: the probe yields status 500,
which is not a success under the claimed criterion, yet the backend is marked
healthy. -/
theorem c3_probe_status500_counterexample :
    (applyProbe (freshBackend "node1" "ws://localhost:8081/ws" 0)
        (ProbeResult.response 500) 77).isHealthy = true
      ∧ statusIs200 (ProbeResult.response 500) = false := by
  exact ⟨rfl, rfl⟩

/-- C3 (amended): a probed backend is marked healthy iff the HTTP GET returned
a response at all — any status code, 500 included, counts as healthy; only a
transport-level error marks it unhealthy.  `lastCheck` is updated to the probe
time on every probe regardless of outcome. -/
theorem c3_probe_marks_health_amended (b : BackendServer) (r : ProbeResult) (t : Nat) :
    (applyProbe b r t).isHealthy = respReceived r ∧ (applyProbe b r t).lastCheck = t := by
  cases r <;> exact ⟨rfl, rfl⟩

/-! ### C6 — registry add is an overwrite, not an idempotent install -/

/-- C6 counterexample: a backend with one live connection and a failed health
probe (`connections = 1`, `isHealthy = false`) is re-added with the same id;
the repeated add resets its connection count to 0 and its health flag to
true, contradicting the claim that a repeated add does not reset them. -/
theorem c6_addBackend_reset_counterexample :
    connOf lbConnUnhealthy "node1" = 1 ∧
    (findBackend lbConnUnhealthy.backends "node1").map (fun b => b.isHealthy) = some false ∧
    connOf (AddBackend lbConnUnhealthy "node1" "ws://localhost:8081/ws" 3) "node1" = 0 ∧
    (findBackend (AddBackend lbConnUnhealthy "node1" "ws://localhost:8081/ws" 3).backends
        "node1").map (fun b => b.isHealthy) = some true := by
  decide

theorem setBackend_setBackend (bs : List BackendServer) (nb nb' : BackendServer)
    (h : nb.id = nb'.id) : setBackend (setBackend bs nb) nb' = setBackend bs nb' := by
  induction bs with
  | nil =>
    simp [setBackend, h]
  | cons b rest ih =>
    by_cases hb : b.id = nb.id
    · have hb' : b.id = nb'.id := by rw [hb, h]
      simp [setBackend, hb, hb', h]
    · have hb' : ¬ (b.id = nb'.id) := by rw [← h]; exact hb
      simp [setBackend, hb, hb', ih]

theorem findBackend_setBackend_self (bs : List BackendServer) (nb : BackendServer) :
    findBackend (setBackend bs nb) nb.id = some nb := by
  induction bs with
  | nil => simp [setBackend, findBackend_cons]
  | cons b rest ih =>
    by_cases hb : b.id = nb.id
    · simp [setBackend, hb, findBackend_cons]
    · simp [setBackend, hb, findBackend_cons, ih]

/-- C6 (amended): `AddBackend` is an overwrite by id, not an idempotent
install: no duplicate entry is created (a second add with the same id yields
exactly the state a single add yields), but the repeated add replaces the
existing descriptor with a fresh one — connection count reset to zero, health
flag reset to true, address and `lastCheck` taken from the repeated call. -/
theorem c6_addBackend_overwrites_amended (lb : LoadBalancer) (id a a' : String) (t t' : Nat) :
    AddBackend (AddBackend lb id a t) id a' t' = AddBackend lb id a' t' ∧
    findBackend (AddBackend lb id a t).backends id = some (freshBackend id a t) := by
  constructor
  · show ({ AddBackend lb id a t with
      backends := setBackend (AddBackend lb id a t).backends (freshBackend id a' t') } : LoadBalancer) = _
    simp only [AddBackend]
    rw [setBackend_setBackend lb.backends (freshBackend id a t) (freshBackend id a' t') rfl]
  · exact findBackend_setBackend_self lb.backends (freshBackend id a t)

/-! ### C9 — client-name synthesis out-of-bounds slice -/

/-- C9: with an empty `client_name` and the non-empty 3-byte `client_id`
`"abc"`, the synthesis `clientID[len(clientID)-4:]` indexes out of bounds
(a run-time panic, embedded as `none`) in both the proxy's and the backend's
upgrade handler; and for every id of length at least 4 the synthesis succeeds
and appends the last 4 bytes of the id to the `"客户端_"` prefix. -/
theorem c9_clientName_synthesis (cid : List Nat) (h : 4 ≤ cid.length) :
    (lbSynthClientName [] [97, 98, 99] = none ∧ srvSynthClientName [] [97, 98, 99] = none) ∧
    (lbSynthClientName [] cid = some (cnClientBytes ++ cid.drop (cid.length - 4)) ∧
     srvSynthClientName [] cid = some (cnClientBytes ++ cid.drop (cid.length - 4))) := by
  refine ⟨⟨rfl, rfl⟩, ?_, ?_⟩ <;>
    simp [lbSynthClientName, srvSynthClientName, Nat.not_lt.mpr h]

/-- C9 witness: the theorem applied to the concrete 4-byte id `"hijk"`. -/
theorem c9_clientName_synthesis_witness :
    4 ≤ ([104, 105, 106, 107] : List Nat).length ∧
    lbSynthClientName [] [104, 105, 106, 107] =
      some (cnClientBytes ++
        ([104, 105, 106, 107] : List Nat).drop (([104, 105, 106, 107] : List Nat).length - 4)) :=
  ⟨by decide, (c9_clientName_synthesis [104, 105, 106, 107] (by decide)).2.1⟩

/-! ### C2 — the selector has no session affinity -/

theorem selectBackend_preserves (lb : LoadBalancer) (a : String) :
    ((selectBackend lb a).2).backends = lb.backends ∧
    ((selectBackend lb a).2).clients = lb.clients ∧
    ((selectBackend lb a).2).strategy = lb.strategy ∧
    ((selectBackend lb a).2).port = lb.port := by
  unfold selectBackend
  by_cases h0 : (healthyBackends lb).length = 0
  · simp [h0]
  · by_cases h1 : lb.strategy = "round_robin"
    · simp [h0, h1]
    · by_cases h2 : lb.strategy = "least_conn"
      · simp [h0, h1, h2]
      · simp [h0, h1, h2]

theorem selectBackend_single (lb : LoadBalancer) (a : String) (b : BackendServer)
    (h1 : healthyBackends lb = [b]) (h2 : (b.connections : Int) < maxGoInt) :
    (selectBackend lb a).1 = some b := by
  unfold selectBackend
  rw [h1]
  by_cases hs1 : lb.strategy = "round_robin"
  · simp [hs1, Nat.mod_one]
  · by_cases hs2 : lb.strategy = "least_conn"
    · simp [hs1, hs2, leastConnLoop, if_pos h2]
    · simp [hs1, hs2]

/-- C2 counterexample: two healthy backends under `round_robin`; the very same
client fingerprint is observed twice in immediate succession (so within any
affinity TTL, with no health change in between), yet the two selections
return different backends — the first selection does not bind the fingerprint
and the second does not return a bound backend, because `selectBackend` keeps
no affinity state and advances the round-robin index instead. -/
theorem c2_no_affinity_counterexample :
    ((selectBackend lbTwoBackends "fingerprint-f").1).isSome = true ∧
    ((selectBackend ((selectBackend lbTwoBackends "fingerprint-f").2) "fingerprint-f").1).isSome
      = true ∧
    (selectBackend lbTwoBackends "fingerprint-f").1 ≠
      (selectBackend ((selectBackend lbTwoBackends "fingerprint-f").2) "fingerprint-f").1 := by
  decide

/-- C2 (amended): the selector maintains no affinity table at all — its
result is entirely independent of the client fingerprint (Go discards the
argument: `selectBackend(_ string)`), so the claimed fingerprint-binding
behaviour does not exist.  Two selections are guaranteed to agree only in the
degenerate case of a single healthy backend (whose counter is below Go's max
int), where every strategy returns that backend both times. -/
theorem c2_selector_no_affinity_amended (lb : LoadBalancer) (a1 a2 a : String)
    (b : BackendServer) (h1 : healthyBackends lb = [b])
    (h2 : (b.connections : Int) < maxGoInt) :
    selectBackend lb a1 = selectBackend lb a2 ∧
    (selectBackend lb a).1 = some b ∧
    (selectBackend ((selectBackend lb a).2) a).1 = some b := by
  refine ⟨rfl, selectBackend_single lb a b h1 h2, ?_⟩
  apply selectBackend_single _ _ _ _ h2
  show healthyBackends ((selectBackend lb a).2) = [b]
  unfold healthyBackends
  rw [(selectBackend_preserves lb a).1]
  exact h1

/-- C2 witness: the amended theorem applied to a single healthy backend. -/
theorem c2_selector_no_affinity_witness :
    healthyBackends lbOneBackend = [freshBackend "node1" "ws://localhost:8081/ws" 0] ∧
    ((freshBackend "node1" "ws://localhost:8081/ws" 0).connections : Int) < maxGoInt ∧
    (selectBackend lbOneBackend "f").1 = some (freshBackend "node1" "ws://localhost:8081/ws" 0) :=
  ⟨by decide, by decide,
    (c2_selector_no_affinity_amended lbOneBackend "x" "y" "f" _ (by decide) (by decide)).2.1⟩

/-! ### C7 — only healthy backends are ever selected and spliced -/

theorem leastConnLoop_mem (l : List BackendServer) :
    ∀ (sel : Option BackendServer) (m : Int) (b : BackendServer),
      leastConnLoop l sel m = some b → b ∈ l ∨ sel = some b := by
  induction l with
  | nil =>
    intro sel m b h
    right
    exact h
  | cons x rest ih =>
    intro sel m b h
    unfold leastConnLoop at h
    by_cases hx : (x.connections : Int) < m
    · rw [if_pos hx] at h
      rcases ih _ _ _ h with hm | hs
      · exact Or.inl (List.mem_cons_of_mem x hm)
      · exact Or.inl (Option.some.inj hs ▸ List.mem_cons_self x rest)
    · rw [if_neg hx] at h
      rcases ih _ _ _ h with hm | hs
      · exact Or.inl (List.mem_cons_of_mem x hm)
      · exact Or.inr hs

theorem mem_healthyBackends_isHealthy (lb : LoadBalancer) (b : BackendServer)
    (h : b ∈ healthyBackends lb) : b.isHealthy = true :=
  (List.mem_filter.mp h).2

/-- C7: every backend the selector returns has its health flag set at the
moment of selection, in every state: the selector draws only from the
healthy-filtered snapshot.  Moreover every splice the admission path opens
targets exactly the backend the selector returned — so no new splice targets
a backend whose health flag is false.  (The proxy performs no plain-HTTP
forwarding at all, so no HTTP forward targets one either.) -/
theorem c7_selected_backend_healthy (lb : LoadBalancer) (addr : String) (b : BackendServer)
    (h : (selectBackend lb addr).1 = some b) :
    b.isHealthy = true ∧
    ∀ (cid cname : String) (now : Nat) (dial : String → DialOutcome)
      (lb' : LoadBalancer) (bid : String),
      handleWebSocketAdmission lb addr cid cname now dial = (lb', UpgradeReply.proceed bid) →
      bid = b.id := by
  have hmem : b ∈ healthyBackends lb := by
    unfold selectBackend at h
    by_cases h0 : (healthyBackends lb).length = 0
    · rw [if_pos h0] at h
      exact absurd h (by simp)
    · rw [if_neg h0] at h
      by_cases h1 : lb.strategy = "round_robin"
      · simp only [if_pos h1] at h
        exact List.get?_mem h
      · by_cases h2 : lb.strategy = "least_conn"
        · simp only [if_neg h1, if_pos h2] at h
          rcases leastConnLoop_mem _ _ _ _ h with hm | hs
          · exact hm
          · exact absurd hs (by simp)
        · simp only [if_neg h1, if_neg h2] at h
          cases hl : healthyBackends lb with
          | nil => rw [hl] at h; exact absurd h (by simp)
          | cons y ys =>
            rw [hl] at h
            have hy : some y = some b := h
            rw [← Option.some.inj hy]
            exact List.mem_cons_self y ys
  refine ⟨mem_healthyBackends_isHealthy lb b hmem, ?_⟩
  intro cid cname now dial lb' bid hadm
  unfold handleWebSocketAdmission at hadm
  rcases hp : selectBackend lb addr with ⟨o, lb1⟩
  rw [hp] at hadm h
  have ho : o = some b := h
  subst ho
  simp only at hadm
  cases hd : dial b.address
  · rw [hd] at hadm
    simp only at hadm
    have := congrArg Prod.snd hadm
    simp only at this
    exact (UpgradeReply.proceed.inj this).symm
  · rw [hd] at hadm
    simp only at hadm
    have := congrArg Prod.snd hadm
    simp only at this
    exact absurd this (by simp)

/-- C7 witness: the theorem applied to a single healthy backend state. -/
theorem c7_selected_backend_healthy_witness :
    (selectBackend lbOneBackend "9.9.9.9:1").1
      = some (freshBackend "node1" "ws://localhost:8081/ws" 0) ∧
    (freshBackend "node1" "ws://localhost:8081/ws" 0).isHealthy = true :=
  ⟨by decide,
    (c7_selected_backend_healthy lbOneBackend "9.9.9.9:1" _ (by decide)).1⟩

/-! ### C5 — reply when no healthy backend exists -/

/-- C5 counterexample: with the only backend marked unhealthy by a failed
probe, an upgrade whose selection returns NONE is answered with the JSON
error envelope `{"error": "没有可用的服务器"}` written on the upgraded client
socket — not with a WebSocket close frame carrying code 1011
(`CloseInternalServerErr`); and the source has no plain-HTTP reply path at
all, so no 503 is produced either. -/
theorem c5_json_error_not_close_frame_counterexample :
    (handleWebSocketAdmission lbAllUnhealthy "1.2.3.4:5" "c1" "n1" 2
        (fun _ => DialOutcome.dialOk)).2 = UpgradeReply.jsonError "没有可用的服务器" ∧
    (handleWebSocketAdmission lbAllUnhealthy "1.2.3.4:5" "c1" "n1" 2
        (fun _ => DialOutcome.dialOk)).2 ≠ UpgradeReply.closeFrame 1011 := by
  decide

/-- C5 (amended): whenever the selector returns NONE, `handleWebSocket`
replies on the already-upgraded client socket with the JSON error envelope
`{"error": "没有可用的服务器"}` (no close frame with code 1011 is sent, and
the proxy has no plain-HTTP request path, hence no 503 reply); no backend
connection counter — indeed no part of the backend or client tables — is
touched. -/
theorem c5_no_backend_reply_amended (lb : LoadBalancer) (addr cid cname : String)
    (now : Nat) (dial : String → DialOutcome)
    (h : (selectBackend lb addr).1 = none) :
    (handleWebSocketAdmission lb addr cid cname now dial).2
      = UpgradeReply.jsonError "没有可用的服务器" ∧
    (handleWebSocketAdmission lb addr cid cname now dial).1.backends = lb.backends ∧
    (handleWebSocketAdmission lb addr cid cname now dial).1.clients = lb.clients := by
  have hpres := selectBackend_preserves lb addr
  rcases hp : selectBackend lb addr with ⟨o, lb1⟩
  rw [hp] at h hpres
  have ho : o = none := h
  subst ho
  unfold handleWebSocketAdmission
  rw [hp]
  exact ⟨rfl, hpres.1, hpres.2.1⟩

/-- C5 witness: the amended theorem applied to the unhealthy-backend state. -/
theorem c5_no_backend_reply_witness :
    (selectBackend lbAllUnhealthy "1.2.3.4:5").1 = none ∧
    (handleWebSocketAdmission lbAllUnhealthy "1.2.3.4:5" "c9" "n9" 7
        (fun _ => DialOutcome.dialFail)).2 = UpgradeReply.jsonError "没有可用的服务器" :=
  ⟨by decide,
    (c5_no_backend_reply_amended lbAllUnhealthy "1.2.3.4:5" "c9" "n9" 7
      (fun _ => DialOutcome.dialFail) (by decide)).1⟩

/-! ### C4 — forwarding re-encodes frames instead of copying bytes -/

theorem lookupKey_insertSorted (acc : List (String × JVal)) (k0 : String) (v0 : JVal)
    (k : String) :
    lookupKey (insertSorted acc k0 v0) k = if k0 = k then some v0 else lookupKey acc k := by
  induction acc with
  | nil =>
    simp [insertSorted, lookupKey]
  | cons kv rest ih =>
    rcases kv with ⟨k1, v1⟩
    by_cases he : k0 = k1
    · subst he
      simp only [insertSorted, if_pos rfl]
      by_cases hk : k0 = k
      · simp [lookupKey, hk]
      · simp [lookupKey, hk]
    · simp only [insertSorted, if_neg he]
      by_cases hlt : keyLt k0 k1 = true
      · rw [if_pos hlt]
        by_cases hk : k0 = k
        · simp [lookupKey, hk]
        · simp [lookupKey, hk]
      · rw [if_neg hlt]
        by_cases h1k : k1 = k
        · have hk : ¬ (k0 = k) := by
            rw [← h1k]
            exact he
          simp [lookupKey, h1k, hk]
        · simp [lookupKey, h1k, ih]

theorem lookupKey_goFold (f : JFrame) :
    ∀ (acc : List (String × JVal)) (k : String),
      lookupKey (f.foldl (fun acc kv => insertSorted acc kv.1 kv.2) acc) k =
        match lastBinding f k with
        | some v => some v
        | none => lookupKey acc k := by
  induction f with
  | nil =>
    intro acc k
    simp [lastBinding]
  | cons kv rest ih =>
    intro acc k
    rcases kv with ⟨k0, v0⟩
    simp only [List.foldl_cons]
    rw [ih (insertSorted acc k0 v0) k]
    rw [lookupKey_insertSorted]
    simp only [lastBinding]
    cases hlb : lastBinding rest k with
    | some v => rfl
    | none =>
      by_cases hk : k0 = k
      · simp [hk]
      · simp [hk]

/-- C4 counterexample: the two-field envelope `'{"b":1,"a":2}'` read by a
forwarder is written to the opposite leg as `'{"a":2,"b":1}'` — decoded into
a Go map and re-marshalled with sorted keys — so the written frame is not
byte-identical to the frame that was read. -/
theorem c4_not_byte_identical_counterexample :
    emit (reencode frameBA) ≠ emit frameBA ∧ reencode frameBA ≠ frameBA := by
  decide

/-- C4 (amended): each forwarder direction writes, for the i-th frame it
reads, the re-encoding of exactly that frame (order within a direction is
preserved, nothing is dropped or duplicated), and re-encoding preserves the
decoded content of the frame — every key is bound to the same value the Go
JSON decode assigns it (the last binding in wire order) — but not its bytes:
field order is normalized to sorted keys, so forwarding is
JSON-object-equivalent rather than byte-identical, and no field name or
value is rewritten. -/
theorem c4_forward_reencodes_amended (frames : List JFrame) (i : Nat) (f : JFrame)
    (k : String) :
    (forwardDirection frames).get? i = (frames.get? i).map reencode ∧
    lookupKey (reencode f) k = lastBinding f k := by
  constructor
  · exact List.get?_map reencode frames i
  · rw [reencode, toGoMap, lookupKey_goFold f [] k]
    cases lastBinding f k <;> rfl

/-! ### C8 — sweeper eviction and read-side offline reporting -/

theorem getClient_snd (r : GlobalClientRegistry) (cid : String) (now : Nat) :
    (GetClient r cid now).2 = lookupPtr r.index cid := by
  unfold GetClient
  split
  · rename_i hl
    rw [hl]
  · rename_i a hl
    split <;> rw [hl]

theorem getClient_index (r : GlobalClientRegistry) (cid : String) (now : Nat) :
    (GetClient r cid now).1.index = r.index := by
  unfold GetClient
  split
  · rfl
  · split <;> rfl

/-- C8: (1) the sweeper removes exactly those entries whose record's last-seen
is older than 5 minutes at sweep time; (2) neither `GetClient` nor
`GetAllClients` removes an entry; (3) a record whose last-seen exceeds 30
seconds is marked status `offline` and inactive by the read; (4) `GetClient`
stores exactly that marking back into the record's cell, removing nothing. -/
theorem c8_sweep_and_read_semantics :
    (∀ (r : GlobalClientRegistry) (now : Nat) (cid : String) (a : Nat)
        (c : GlobalClientInfo), readCell r.cells a = some c →
        (((cid, a) ∈ (CleanupOfflineClients r now).index) ↔
          ((cid, a) ∈ r.index ∧ ¬(cleanupAfter < now - c.lastSeen)))) ∧
    (∀ (r : GlobalClientRegistry) (cid : String) (now : Nat),
        (GetClient r cid now).1.index = r.index ∧
        (GetAllClients r now).1.index = r.index) ∧
    (∀ (c : GlobalClientInfo) (now : Nat), offlineAfter < now - c.lastSeen →
        (markByAge c now).status = "offline" ∧ (markByAge c now).isActive = false) ∧
    (∀ (r : GlobalClientRegistry) (now : Nat) (cid : String) (a : Nat)
        (c : GlobalClientInfo),
        lookupPtr r.index cid = some a → readCell r.cells a = some c →
        readCell (GetClient r cid now).1.cells a = some (markByAge c now)) := by
  refine ⟨?_, ?_, ?_, ?_⟩
  · intro r now cid a c h
    unfold CleanupOfflineClients
    simp only [List.mem_filter]
    rw [h]
    simp
  · intro r cid now
    exact ⟨getClient_index r cid now, rfl⟩
  · intro c now h
    unfold markByAge
    rw [if_pos h]
    exact ⟨rfl, rfl⟩
  · intro r now cid a c h1 h2
    simp only [GetClient, h1, h2]
    exact readCell_writeCell r.cells a c (markByAge c now) h2

/-- C8 witness: the theorem applied to the one-record registry `regOne` — at
200 s its entry survives a sweep, and a read at 40 s (30 s exceeded) stores
the offline-marked record back into the same cell. -/
theorem c8_sweep_and_read_semantics_witness :
    ("c1", 0) ∈ (CleanupOfflineClients regOne 200000000000).index ∧
    readCell (GetClient regOne "c1" 40000000000).1.cells 0
      = some (markByAge recOnline 40000000000) :=
  ⟨(c8_sweep_and_read_semantics.1 regOne 200000000000 "c1" 0 recOnline (by decide)).mpr
      ⟨by decide, by decide⟩,
    c8_sweep_and_read_semantics.2.2.2 regOne 40000000000 "c1" 0 recOnline
      (by decide) (by decide)⟩

/-! ### C10 — registry reads mutate state and return aliases -/

/-- C10: the registry's read operations are not side-effect-free and return
aliases into the registry's own storage: (1) `GetClient` on a stale record
changes the registry state; (2) the pointer `GetClient` returns is exactly
the address stored in the registry's map for that id; (3) the map
`GetAllClients` returns is the registry's own id-to-pointer map, not a deep
copy; (4) writing through the returned pointer changes the cell the registry
itself reads; (5) the in-place marking changes only `isActive` and `status`
— `id`, `name`, `nodeID`, `nodePort`, `connTime` and `lastSeen` are left
unchanged by a read. -/
theorem c10_reads_mutate_and_alias :
    ((GetClient regOne "c1" 40000000000).1 ≠ regOne) ∧
    (∀ (r : GlobalClientRegistry) (cid : String) (now a : Nat),
        (GetClient r cid now).2 = some a → lookupPtr r.index cid = some a) ∧
    (∀ (r : GlobalClientRegistry) (now : Nat), (GetAllClients r now).2 = r.index) ∧
    (∀ (r : GlobalClientRegistry) (cid : String) (now a : Nat)
        (c cNew : GlobalClientInfo),
        (GetClient r cid now).2 = some a →
        readCell (GetClient r cid now).1.cells a = some c →
        readCell (writeCell (GetClient r cid now).1.cells a cNew) a = some cNew) ∧
    (∀ (c : GlobalClientInfo) (now : Nat),
        (markByAge c now).id = c.id ∧ (markByAge c now).name = c.name ∧
        (markByAge c now).nodeID = c.nodeID ∧ (markByAge c now).nodePort = c.nodePort ∧
        (markByAge c now).connTime = c.connTime ∧ (markByAge c now).lastSeen = c.lastSeen) := by
  refine ⟨by decide, ?_, ?_, ?_, ?_⟩
  · intro r cid now a h
    rw [getClient_snd] at h
    exact h
  · intro r now
    rfl
  · intro r cid now a c cNew h1 h2
    exact readCell_writeCell _ a c cNew h2
  · intro c now
    unfold markByAge
    by_cases h : offlineAfter < now - c.lastSeen
    · rw [if_pos h]
      exact ⟨rfl, rfl, rfl, rfl, rfl, rfl⟩
    · rw [if_neg h]
      exact ⟨rfl, rfl, rfl, rfl, rfl, rfl⟩

/-- C10 witness: the aliasing parts applied to `regOne` — the returned
pointer is the registry's stored address 0, and a caller's write through it
is visible in the registry's heap. -/
theorem c10_reads_mutate_and_alias_witness :
    lookupPtr regOne.index "c1" = some 0 ∧
    readCell (writeCell (GetClient regOne "c1" 5).1.cells 0 recOnline) 0 = some recOnline :=
  ⟨c10_reads_mutate_and_alias.2.1 regOne "c1" 5 0 (by decide),
    c10_reads_mutate_and_alias.2.2.2.1 regOne "c1" 5 0 (markByAge recOnline 5) recOnline
      (by decide) (by decide)⟩

/-! ### C1 — splice connection accounting -/

theorem applyEvent_preserves_inv (lb : LoadBalancer) (e : SpliceEvent)
    (hwf : wfEvent lb e = true)
    (hinv : ∀ bid, connOf lb bid ≤ activeSplices lb bid) :
    ∀ bid, connOf (applyEvent lb e) bid ≤ activeSplices (applyEvent lb e) bid := by
  cases e with
  | start cid cname bid0 now =>
    intro bid
    have hfresh : findClient lb.clients cid = none := by
      simpa [wfEvent, Option.isNone_iff_eq_none] using hwf
    have hinv0 := hinv bid
    simp only [connOf, activeSplices] at hinv0 ⊢
    simp only [applyEvent]
    rw [setClient_fresh _ _ hfresh]
    simp only [clientsFor, List.filter_append, List.length_append]
    by_cases hb : bid = bid0
    · subst hb
      have h1 := connCount_incConnections_le lb.backends bid
      simp only [List.filter_cons, List.filter_nil, beq_self_eq_true, if_true,
        List.length_cons, List.length_nil]
      simp only [clientsFor] at hinv0
      omega
    · have h1 := connCount_incConnections_ne lb.backends bid0 bid hb
      rw [h1]
      have hne : (bid0 == bid) = false := beq_eq_false_iff_ne.mpr (Ne.symm hb)
      simp only [List.filter_cons, hne, Bool.false_eq_true, if_false, List.filter_nil,
        List.length_nil]
      simp only [clientsFor] at hinv0
      omega
  | finish cid bid0 =>
    intro bid
    obtain ⟨c, hc, hcb⟩ : ∃ c, findClient lb.clients cid = some c ∧ c.backendID = bid0 := by
      have hwf2 : (match findClient lb.clients cid with
          | some c => (c.backendID == bid0)
          | none => false) = true := hwf
      cases hfc : findClient lb.clients cid with
      | none =>
        rw [hfc] at hwf2
        exact absurd (show false = true from hwf2) (by simp)
      | some c =>
        rw [hfc] at hwf2
        exact ⟨c, rfl, eq_of_beq (show (c.backendID == bid0) = true from hwf2)⟩
    have hinv0 := hinv bid
    simp only [connOf, activeSplices] at hinv0 ⊢
    simp only [applyEvent]
    by_cases hb : bid = bid0
    · subst hb
      have hdec : connCount (decConnections (decConnections lb.backends bid) bid) bid
          = connCount lb.backends bid - 1 - 1 := by
        rw [connCount_decConnections, connCount_decConnections]
      have hrm := removeClient_filter_length lb.clients cid c hc
        (fun x => x.backendID == bid)
      have hpc : ((c.backendID == bid) : Bool) = true := by
        simp [hcb]
      simp only [hpc, if_true] at hrm
      rw [hdec]
      simp only [clientsFor] at hinv0 ⊢
      omega
    · have h1 : connCount (decConnections (decConnections lb.backends bid0) bid0) bid
          = connCount lb.backends bid := by
        rw [connCount_decConnections_ne _ _ _ hb, connCount_decConnections_ne _ _ _ hb]
      have hrm := removeClient_filter_length lb.clients cid c hc
        (fun x => x.backendID == bid)
      have hpc : ((c.backendID == bid) : Bool) = false := by
        simp only [beq_eq_false_iff_ne, ne_eq, hcb]
        exact Ne.symm hb
      simp only [hpc, Bool.false_eq_true, if_false] at hrm
      rw [h1]
      simp only [clientsFor] at hinv0 ⊢
      omega

theorem runEvents_preserves_inv : ∀ (tr : List SpliceEvent) (lb : LoadBalancer),
    wfTraceB lb tr = true → (∀ bid, connOf lb bid ≤ activeSplices lb bid) →
    ∀ bid, connOf (runEvents lb tr) bid ≤ activeSplices (runEvents lb tr) bid := by
  intro tr
  induction tr with
  | nil =>
    intro lb _ hinv bid
    exact hinv bid
  | cons e rest ih =>
    intro lb hwf hinv bid
    have hsplit : wfEvent lb e = true ∧ wfTraceB (applyEvent lb e) rest = true := by
      simpa [wfTraceB, Bool.and_eq_true] using hwf
    have hstep : runEvents lb (e :: rest) = runEvents (applyEvent lb e) rest := rfl
    rw [hstep]
    exact ih (applyEvent lb e) hsplit.2 (applyEvent_preserves_inv lb e hsplit.1 hinv) bid

/-- C1 counterexample: with one backend, the admissible trace "start splice
c1 on node1, start splice c2 on node1, finish splice c1" leaves the counter
at 0 while one splice (c2) is still active — the teardown of c1 ran the
guarded decrement twice (once in `cleanupConnection`, once in the handler's
deferred cleanup), so `b.connections` does not equal the number of active
splices and the decrement is not executed exactly once. -/
theorem c1_double_decrement_counterexample :
    wfTraceB lbOneBackend trTwoStartsOneFinish = true ∧
    connOf (runEvents lbOneBackend trTwoStartsOneFinish) "node1" = 0 ∧
    activeSplices (runEvents lbOneBackend trTwoStartsOneFinish) "node1" = 1 := by
  decide

/-- C1 (amended): because every splice teardown executes the guarded
decrement twice (`cleanupConnection` from the forwarder's defer, then the
handler's own deferred cleanup, both clamped at zero), the counter can only
be guaranteed to be at most the number of active splices with that backend —
it undercounts whenever another session on the same backend has already
ended — and it does return to zero when the last session ends: over every
admissible sequence of splice starts and completions from a state satisfying
the bound, every backend's counter stays at most its number of active
splices, and equals zero once its last active splice is gone. -/
theorem c1_connection_accounting_amended (lb : LoadBalancer) (tr : List SpliceEvent)
    (hwf : wfTraceB lb tr = true)
    (hinv : ∀ bid, connOf lb bid ≤ activeSplices lb bid) :
    (∀ bid, connOf (runEvents lb tr) bid ≤ activeSplices (runEvents lb tr) bid) ∧
    (∀ bid, activeSplices (runEvents lb tr) bid = 0 → connOf (runEvents lb tr) bid = 0) := by
  have main := runEvents_preserves_inv tr lb hwf hinv
  exact ⟨main, fun bid h0 => Nat.le_zero.mp (h0 ▸ main bid)⟩

/-- C1 witness: the amended theorem applied to a fresh balancer and a
single splice start. -/
theorem c1_connection_accounting_witness :
    wfTraceB (NewLoadBalancer 8080 "round_robin")
      [SpliceEvent.start "c1" "n1" "node1" 1] = true ∧
    connOf (runEvents (NewLoadBalancer 8080 "round_robin")
        [SpliceEvent.start "c1" "n1" "node1" 1]) "node1"
      ≤ activeSplices (runEvents (NewLoadBalancer 8080 "round_robin")
        [SpliceEvent.start "c1" "n1" "node1" 1]) "node1" :=
  ⟨by decide,
    (c1_connection_accounting_amended (NewLoadBalancer 8080 "round_robin")
      [SpliceEvent.start "c1" "n1" "node1" 1] (by decide)
      (fun bid => by
        simp [connOf, connCount, NewLoadBalancer, findBackend])).1 "node1"⟩

end WsLb

